import Mathlib

/-!
Verification development for the RustSpreadsheets repository.

The Rust sources are shallowly embedded:
* `src/engine/parser.rs` — `FormulaError`, `Expr`, `BinOp`, `UnOp`, the
  function registry (`sum`, `avg`), `eval_expr`, `eval_binary_op`,
  `eval_unary_op`, `calculate`.
* `src/model/grid.rs` / `src/components/grid.rs` — `Coords`, `Cell`, `Grid`,
  `column_index_to_letter`, `column_letter_to_index`,
  `cell_address_to_coords`, `get_cell_value_by_address`,
  `update_cell_display`.

Rust `f64` values are embedded as `ℚ` (exact rational arithmetic).  All the
properties examined here concern values on which `f64` arithmetic is exact
(small integers and terminating decimals), so the embedding agrees with the
source on every input appearing in a theorem below.
-/

namespace Spreadsheet

/-- `FormulaError` from `src/engine/parser.rs` lines 6-11.  The source
enumeration has exactly these three variants: `ParsingError`, `DivBy0`,
`UnknownFunction`. -/
inductive FormulaError where
  | ParsingError
  | DivBy0
  | UnknownFunction
deriving DecidableEq, Repr

/-- The `fmt::Display` impl for `FormulaError` (`parser.rs` lines 13-21):
`ParsingError` and `UnknownFunction` both render as `"#NAME?"`, `DivBy0`
renders as `"#DIV/0!"`. -/
def FormulaError.toDisplayString : FormulaError → String
  | .ParsingError => "#NAME?"
  | .DivBy0 => "#DIV/0!"
  | .UnknownFunction => "#NAME?"

/-- `BinOp` from `parser.rs` lines 80-87. -/
inductive BinOp where
  | Add
  | Sub
  | Mul
  | Div
  | Pow
deriving DecidableEq, Repr

/-- `UnOp` from `parser.rs` lines 89-92. -/
inductive UnOp where
  | Neg
deriving DecidableEq, Repr

/-- `Expr` from `parser.rs` lines 58-78: the AST produced by `parse_expr`. -/
inductive Expr where
  | Number (n : ℚ)
  | CellRef (cr : String)
  | BinaryOp (op : BinOp) (lhs rhs : Expr)
  | UnaryOp (op : UnOp) (operand : Expr)
  | Function (name : String) (args : List Expr)
deriving Repr

/-- `sum` from `parser.rs` lines 47-49: `Ok(args.iter().sum())`. -/
def sum (args : List ℚ) : Except FormulaError ℚ :=
  .ok args.sum

/-- `avg` from `parser.rs` lines 51-56: error `DivBy0` on the empty list,
otherwise the sum divided by the length. -/
def avg (args : List ℚ) : Except FormulaError ℚ :=
  if args.isEmpty then .error .DivBy0
  else .ok (args.sum / args.length)

/-- `FUNCTION_REGISTRY` from `parser.rs` lines 39-44: a fixed map with the
two entries `"SUM" ↦ sum` and `"AVG" ↦ avg`. -/
def FUNCTION_REGISTRY (name : String) : Option (List ℚ → Except FormulaError ℚ) :=
  if name = "SUM" then some sum
  else if name = "AVG" then some avg
  else none

/-- Models Rust `f64::powf` (used in `eval_binary_op`, `parser.rs` line 187).
On an integer exponent it is the exact power `b ^ e.num` (matching `powf`
wherever `f64` is exact); on a fractional exponent the result is some
platform value the spec leaves unspecified, modelled here by `0`.  No claim
depends on the fractional case: only totality of `Pow` matters. -/
def powf (b e : ℚ) : ℚ :=
  if e.den = 1 then b ^ e.num else 0

/-- `eval_binary_op` from `parser.rs` lines 176-189: `Div` fails with
`DivBy0` when the right operand is `0`, every other operator is total. -/
def eval_binary_op (op : BinOp) (lhs rhs : ℚ) : Except FormulaError ℚ :=
  match op with
  | .Add => .ok (lhs + rhs)
  | .Sub => .ok (lhs - rhs)
  | .Mul => .ok (lhs * rhs)
  | .Div => if rhs = 0 then .error .DivBy0 else .ok (lhs / rhs)
  | .Pow => .ok (powf lhs rhs)

/-- `eval_unary_op` from `parser.rs` lines 191-195. -/
def eval_unary_op (op : UnOp) (operand : ℚ) : ℚ :=
  match op with
  | .Neg => -operand

mutual

/-- `eval_expr` from `parser.rs` lines 142-174.  A cell reference that the
resolver cannot supply evaluates to `0`; function arguments are evaluated
left to right, short-circuiting on the first error; the registry is
consulted with the upper-cased name only after all arguments succeeded. -/
def eval_expr (expr : Expr) (cell_ref_resolver : String → Option ℚ) :
    Except FormulaError ℚ :=
  match expr with
  | .Number n => .ok n
  | .CellRef cr =>
    match cell_ref_resolver cr with
    | some value => .ok value
    | none => .ok 0
  | .BinaryOp op lhs rhs => do
    let lval ← eval_expr lhs cell_ref_resolver
    let rval ← eval_expr rhs cell_ref_resolver
    eval_binary_op op lval rval
  | .UnaryOp op operand => do
    let val ← eval_expr operand cell_ref_resolver
    .ok (eval_unary_op op val)
  | .Function name args => do
    let vals ← eval_args args cell_ref_resolver
    match FUNCTION_REGISTRY name.toUpper with
    | some func => func vals
    | none => .error .UnknownFunction

/-- The `collect::<Result<Vec<f64>, FormulaError>>()` step inside
`eval_expr`'s `Function` arm: left-to-right, all-or-nothing. -/
def eval_args (args : List Expr) (cell_ref_resolver : String → Option ℚ) :
    Except FormulaError (List ℚ) :=
  match args with
  | [] => .ok []
  | e :: es => do
    let v ← eval_expr e cell_ref_resolver
    let vs ← eval_args es cell_ref_resolver
    .ok (v :: vs)

end

/-! ### Lexer and parser

The pest grammar file `src/engine/cell_formula.pest` (referenced from
`parser.rs` line 24) is not among the sources.  The lexer and the
operator-precedence parser below are therefore modelled from the spec,
§4.1, together with the operator table `PRATT_PARSER` that *is* in
`parser.rs` (lines 29-38): `+ - * /` left-associative, `^`
right-associative, precedence low→high additive, multiplicative, power,
unary minus binding tightest. -/

/-- Tokens of the formula language (spec §4.1): decimal numeric literals,
identifiers (cell references `A1` and function names `SUM`), parentheses,
commas, the five operators, and the leading `=` sigil. -/
inductive Tok where
  | num (q : ℚ)
  | ident (s : String)
  | lparen
  | rparen
  | comma
  | plus
  | minus
  | star
  | slash
  | caret
  | eqSign
deriving DecidableEq, Repr

/-- Numeric value of a list of decimal digit characters. -/
def digitsToNat (l : List Char) : ℕ :=
  l.foldl (fun a c => a * 10 + (c.toNat - 48)) 0

/-- Modelled from the spec: the lexical part of the missing grammar file
`src/engine/cell_formula.pest`.  Whitespace is skipped (the repository's
tests parse `"= 3 + 12"`); numbers are `digit+ ('.' digit+)?`; identifiers
are `letter+ digit*` (covering both cell references and function names);
any other character is an unknown token and fails the whole tokenization.
`fuel` bounds recursion; `fuel = chars.length + 1` always suffices because
every step consumes at least one character. -/
def tokenize : ℕ → List Char → Option (List Tok)
  | 0, _ => none
  | _ + 1, [] => some []
  | fuel + 1, c :: cs =>
    if c = ' ' ∨ c = '\t' then tokenize fuel cs
    else if c.isDigit then
      let ds := (c :: cs).takeWhile Char.isDigit
      let rest := (c :: cs).dropWhile Char.isDigit
      match rest with
      | '.' :: r2 =>
        let fs := r2.takeWhile Char.isDigit
        if fs.isEmpty then none
        else
          let r3 := r2.dropWhile Char.isDigit
          let q : ℚ := (digitsToNat ds : ℚ) + (digitsToNat fs : ℚ) / (10 ^ fs.length)
          (tokenize fuel r3).map (Tok.num q :: ·)
      | _ => (tokenize fuel rest).map (Tok.num (digitsToNat ds) :: ·)
    else if c.isAlpha then
      let ls := (c :: cs).takeWhile Char.isAlpha
      let r1 := (c :: cs).dropWhile Char.isAlpha
      let ds := r1.takeWhile Char.isDigit
      let r2 := r1.dropWhile Char.isDigit
      (tokenize fuel r2).map (Tok.ident ⟨ls ++ ds⟩ :: ·)
    else
      let tokOf : Option Tok :=
        match c with
        | '(' => some .lparen
        | ')' => some .rparen
        | ',' => some .comma
        | '+' => some .plus
        | '-' => some .minus
        | '*' => some .star
        | '/' => some .slash
        | '^' => some .caret
        | '=' => some .eqSign
        | _ => none
      match tokOf with
      | some t => (tokenize fuel cs).map (t :: ·)
      | none => none

/-- Binding powers of the binary operators, from `PRATT_PARSER`
(`parser.rs` lines 29-38): `(left-bp, right-bp)` pairs with `+ -` lowest,
then `* /`, then `^` (right-associative, so its right bp is below its left
bp); unary minus (right bp `7`) binds tightest. -/
def binOpOf (t : Tok) : Option (BinOp × ℕ × ℕ) :=
  match t with
  | .plus => some (.Add, 1, 2)
  | .minus => some (.Sub, 1, 2)
  | .star => some (.Mul, 3, 4)
  | .slash => some (.Div, 3, 4)
  | .caret => some (.Pow, 6, 5)
  | _ => none

/-- A cell-reference identifier is `letter+ digit+` (spec §4.1). -/
def isCellRefName (l : List Char) : Bool :=
  let ls := l.takeWhile Char.isAlpha
  let rest := l.dropWhile Char.isAlpha
  !ls.isEmpty && !rest.isEmpty && rest.all Char.isDigit

mutual

/-- Modelled from the spec: the operator-precedence parser (`parse_expr` in
`parser.rs` drives pest's `PrattParser`; the primary grammar rules live in
the missing `cell_formula.pest`).  Parses one expression whose operators
all bind at least `minBp`, returning it with the unconsumed tokens. -/
def parse_expr : ℕ → List Tok → ℕ → Option (Expr × List Tok)
  | 0, _, _ => none
  | fuel + 1, toks, minBp =>
    let atom : Option (Expr × List Tok) :=
      match toks with
      | .num q :: rest => some (.Number q, rest)
      | .ident s :: .lparen :: .rparen :: rest => some (.Function s [], rest)
      | .ident s :: .lparen :: rest =>
        match parseArgs fuel rest with
        | some (args, rest2) => some (.Function s args, rest2)
        | none => none
      | .ident s :: rest =>
        if isCellRefName s.data then some (.CellRef s, rest) else none
      | .lparen :: rest =>
        match parse_expr fuel rest 0 with
        | some (e, .rparen :: rest2) => some (e, rest2)
        | _ => none
      | .minus :: rest =>
        match parse_expr fuel rest 7 with
        | some (e, rest2) => some (.UnaryOp .Neg e, rest2)
        | none => none
      | _ => none
    match atom with
    | some (lhs, rest) => parseLoop fuel lhs rest minBp
    | none => none

/-- The infix loop of the Pratt parser: while the next token is a binary
operator whose left binding power is at least `minBp`, consume it and parse
its right operand at the operator's right binding power. -/
def parseLoop : ℕ → Expr → List Tok → ℕ → Option (Expr × List Tok)
  | 0, _, _, _ => none
  | fuel + 1, lhs, toks, minBp =>
    match toks with
    | t :: rest =>
      match binOpOf t with
      | some (op, lbp, rbp) =>
        if lbp < minBp then some (lhs, toks)
        else
          match parse_expr fuel rest rbp with
          | some (rhs, rest2) => parseLoop fuel (.BinaryOp op lhs rhs) rest2 minBp
          | none => none
      | none => some (lhs, toks)
    | [] => some (lhs, [])

/-- Comma-separated function arguments up to the closing parenthesis
(spec §4.1: `NAME(arg, arg, ...)`). -/
def parseArgs : ℕ → List Tok → Option (List Expr × List Tok)
  | 0, _ => none
  | fuel + 1, toks =>
    match parse_expr fuel toks 0 with
    | some (e, .comma :: rest) =>
      match parseArgs fuel rest with
      | some (es, rest2) => some (e :: es, rest2)
      | none => none
    | some (e, .rparen :: rest) => some ([e], rest)
    | _ => none

end

/-- Modelled from the spec: the `formula` rule of the missing grammar file —
the `=` sigil followed by one expression consuming the whole input (spec
§4.1: trailing garbage is a parse error).  Returns `none` exactly when the
Rust `CellFormulaParser::parse(Rule::formula, input)` would return `Err`. -/
def parse_formula (input : String) : Option Expr :=
  match tokenize (input.data.length + 1) input.data with
  | some (.eqSign :: rest) =>
    match parse_expr (4 * rest.length + 8) rest 0 with
    | some (e, []) => some e
    | _ => none
  | _ => none

/-- `calculate` from `parser.rs` lines 197-208: parse, then evaluate; a
parse failure is `ParsingError`. -/
def calculate (input : String) (cell_ref_resolver : String → Option ℚ) :
    Except FormulaError ℚ :=
  match parse_formula input with
  | some expr => eval_expr expr cell_ref_resolver
  | none => .error .ParsingError

/-! ### Display-string formatting and numeric parsing of display strings -/

/-- Base-10 rendering of a natural number, most significant digit first
(models Rust's integer `Display`). -/
def natDecimal (n : ℕ) : List Char :=
  if h : n < 10 then [Char.ofNat (48 + n)]
  else natDecimal (n / 10) ++ [Char.ofNat (48 + n % 10)]
termination_by n
decreasing_by
  have := Nat.div_lt_self (show 0 < n by omega) (show 1 < 10 by omega)
  omega

/-- Base-10 rendering of an integer. -/
def intDecimal (i : ℤ) : List Char :=
  if i < 0 then '-' :: natDecimal i.natAbs else natDecimal i.toNat

/-- Models Rust `f64::to_string` (the `val.to_string()` in
`update_cell_display`, `components/grid.rs` line 48) on the rationals: an
integral value renders without a decimal point (`15 ↦ "15"`, exactly as
`15.0_f64.to_string()`); a value with a terminating decimal expansion
renders as its exact decimal (`1/2 ↦ "0.5"`).  A rational without a
terminating expansion is not an exact `f64` value, so its rendering (a
fraction) lies outside the faithful fragment; no property below touches
that case. -/
def fmtQ (q : ℚ) : String :=
  if q.den = 1 then ⟨intDecimal q.num⟩
  else
    match (List.range (q.den + 1)).find? (fun k => decide (q.den ∣ 10 ^ k)) with
    | some k =>
      let scaled : ℕ := q.num.natAbs * 10 ^ k / q.den
      let ip := scaled / 10 ^ k
      let fp := scaled % 10 ^ k
      let fpDigits := natDecimal fp
      let frac := List.replicate (k - fpDigits.length) '0' ++ fpDigits
      ⟨(if q.num < 0 then ['-'] else []) ++ natDecimal ip ++ '.' :: frac⟩
    | none => ⟨intDecimal q.num ++ '/' :: natDecimal q.den⟩

/-- Models Rust `str::parse::<f64>()` as used on display strings
(`c.display_value.parse().ok()` in `get_cell_value_by_address`,
`model/grid.rs` line 64): an optional sign followed by decimal digits with
an optional fractional part.  Exponent notation and the special values
`inf`/`NaN` are outside the modelled fragment (the application never
displays them for the values considered here).  Any other string — in
particular the error strings `"#NAME?"` and `"#DIV/0!"`, and arbitrary
non-numeric text — fails, exactly as in Rust. -/
def parseNum (l : List Char) : Option ℚ :=
  let signed : ℚ × List Char :=
    match l with
    | '-' :: r => (-1, r)
    | '+' :: r => (1, r)
    | _ => (1, l)
  let sgn := signed.1
  let rest := signed.2
  let ip := rest.takeWhile Char.isDigit
  let r1 := rest.dropWhile Char.isDigit
  match r1 with
  | [] => if ip.isEmpty then none else some (sgn * digitsToNat ip)
  | '.' :: r2 =>
    let fp := r2.takeWhile Char.isDigit
    let r3 := r2.dropWhile Char.isDigit
    if r3.isEmpty && !(ip.isEmpty && fp.isEmpty) then
      some (sgn * ((digitsToNat ip : ℚ) + (digitsToNat fp : ℚ) / 10 ^ fp.length))
    else none
  | _ => none

/-! ### The grid model (`src/model/grid.rs`, `src/components/grid.rs`) -/

/-- `Coords` from `model/grid.rs` lines 120-124: a `(row, column)` pair of
machine integers, zero-based, used as the `HashMap` key.  (The copy in
`components/grid.rs` uses `i64`; both are embedded as `ℤ`.) -/
structure Coords where
  row : ℤ
  column : ℤ
deriving DecidableEq, Repr

/-- `Cell` from `model/grid.rs` lines 106-109: raw `content` and the cached
`display_value`. -/
structure Cell where
  content : String
  display_value : String
deriving DecidableEq, Repr

/-- `Cell::new` (`model/grid.rs` lines 111-118). -/
def Cell.new : Cell := ⟨"", ""⟩

/-- The claim-relevant state of `Grid` (`model/grid.rs` lines 31-42): the
`cells_map` from coordinates to cells.  The `HashMap` is embedded as an
association list queried by first match; `insert` shadows the previous
entry, giving exactly the `HashMap` lookup/insert semantics.  The UI-only
fields (current cell, column widths, …) play no part in any claim. -/
structure Grid where
  cells_map : List (Coords × Cell)
deriving DecidableEq, Repr

/-- `cells_map.get(&coords)` on the association-list embedding. -/
def Grid.find (g : Grid) (coords : Coords) : Option Cell :=
  (g.cells_map.find? (fun p => p.1 = coords)).map (·.2)

/-- `cells_map.insert(coords, cell)` / `entry(coords).or_insert` followed by
a field write: the new binding shadows any previous one. -/
def Grid.insert (g : Grid) (coords : Coords) (cell : Cell) : Grid :=
  ⟨(coords, cell) :: g.cells_map⟩

/-- The recursive worker of `column_index_to_letter` on a non-negative
column: the Rust loop (`model/grid.rs` lines 3-11) prepends `'A' + c % 26`
and continues with `c / 26 - 1` while that is still non-negative; for
`0 ≤ c` the continuation is non-negative exactly when `26 ≤ c`. -/
def colLettersAux (c : ℕ) : List Char :=
  if c < 26 then [Char.ofNat (65 + c)]
  else colLettersAux (c / 26 - 1) ++ [Char.ofNat (65 + c % 26)]
termination_by c
decreasing_by
  have := Nat.div_lt_self (show 0 < c by omega) (show 1 < 26 by omega)
  omega

/-- `column_index_to_letter` from `model/grid.rs` lines 3-11: bijective
base-26 rendering with letters `A`–`Z`; a negative column never enters the
loop and yields the empty string. -/
def column_index_to_letter (column : ℤ) : List Char :=
  if column < 0 then [] else colLettersAux column.toNat

/-- Two's-complement wrap into the `i32` range: the value of an `i32`
arithmetic result under Rust's release-profile wrapping semantics.  An
argument already in `[-2^31, 2^31 - 1]` is returned unchanged. -/
def wrap32 (x : ℤ) : ℤ :=
  (x + 2147483648) % 4294967296 - 2147483648

/-- `column_letter_to_index` from `model/grid.rs` lines 13-19: fold
`result * 26 + (uppercase c - 'A' + 1)` over the letters.  `Char.toUpper`
agrees with Rust's `to_ascii_uppercase` on every character.  The fold runs
in `i32`, so the multiplication and the addition each wrap
(release-profile two's-complement semantics) for columns beyond the `i32`
range; `(c as i32 - 'A' as i32 + 1)` itself never overflows since a
`char`'s code point is below `2^21`. -/
def column_letter_to_index (column : List Char) : ℤ :=
  column.foldl
    (fun r c => wrap32 (wrap32 (r * 26) + ((c.toUpper.toNat : ℤ) - 65 + 1))) 0

/-- Models `str::parse::<i32>` applied to the digit suffix of a cell
address (`model/grid.rs` line 24): succeeds exactly on a non-empty
all-digit string whose value fits in `i32` (`parse::<i32>` returns `Err`
above `i32::MAX = 2147483647`; a sign cannot occur here, since the suffix
starts at the first digit of the address). -/
def parseRowInt (l : List Char) : Option ℤ :=
  if !l.isEmpty && l.all Char.isDigit then
    if digitsToNat l ≤ 2147483647 then some (digitsToNat l) else none
  else none

/-- `cell_address_to_coords` from `model/grid.rs` lines 21-29: split the
address at the first digit (`address.find(is_numeric)`, `None` when there
is no digit), convert the letter prefix and parse the digit suffix, and
return the zero-based pair.  The two `- 1` subtractions are `i32`
operations, so they too wrap (only reachable at `col = i32::MIN`, itself
only reachable through a wrapped fold).  Rust's `char::is_numeric` is
modelled by `Char.isDigit`, with which it agrees on all of ASCII. -/
def cell_address_to_coords (address : List Char) : Option Coords :=
  let pre := address.takeWhile (fun c => !c.isDigit)
  let post := address.dropWhile (fun c => !c.isDigit)
  if post.isEmpty then none
  else
    match parseRowInt post with
    | some row => some ⟨wrap32 (row - 1), wrap32 (column_letter_to_index pre - 1)⟩
    | none => none

/-- `Grid::get_cell_value_by_address` from `model/grid.rs` lines 60-65
(identical copy in `components/grid.rs` lines 362-367): resolve the address
to coordinates, look the cell up, and parse its display text as a number;
any failure yields `none`. -/
def Grid.get_cell_value_by_address (g : Grid) (address : String) : Option ℚ := do
  let coords ← cell_address_to_coords address.data
  let cell ← g.find coords
  parseNum cell.display_value.data

/-- `update_cell_display` from `components/grid.rs` lines 40-55: if the
cell is absent do nothing; if its content starts with `=`, run `calculate`
with `get_cell_value_by_address` on the *current* grid as resolver and
store the stringified value (or the error's display string); otherwise copy
the content verbatim into the display value.  Nothing else is touched — in
particular no other cell is recomputed. -/
def update_cell_display (g : Grid) (coords : Coords) : Grid :=
  match g.find coords with
  | none => g
  | some cell =>
    match cell.content.data with
    | '=' :: _ =>
      let dv :=
        match calculate cell.content (fun rs => g.get_cell_value_by_address rs) with
        | .ok val => fmtQ val
        | .error e => e.toDisplayString
      g.insert coords ⟨cell.content, dv⟩
    | _ => g.insert coords ⟨cell.content, cell.content⟩

/-- `set_cell_content` (spec §6): write the raw text into the cell, then
recompute it.  In the source the write is the `entry(coords).or_insert`
content assignment in `InputCell` (`components/grid.rs` lines 269-273) and
the recompute is the `update_cell_display` call on blur/Enter (lines
274-284). -/
def set_cell_content (g : Grid) (coords : Coords) (text : String) : Grid :=
  let old := (g.find coords).getD Cell.new
  update_cell_display (g.insert coords ⟨text, old.display_value⟩) coords

/-! ### Claims about the evaluator (C4–C7) -/

/-- C4: binary division fails with `DivBy0` exactly when the right operand
is `0` — whether the divisor is a literal or comes from a cell resolving to
`0` (or to nothing, which also resolves to `0`) — and the operators
`+ - * ^` never return an error for any operand values. -/
theorem C4_div_by_zero_only (l r : ℚ) :
    (eval_binary_op .Div l r = if r = 0 then .error .DivBy0 else .ok (l / r))
    ∧ (∀ op : BinOp, op ≠ .Div → ∃ v : ℚ, eval_binary_op op l r = .ok v)
    ∧ (∀ (resolver : String → Option ℚ) (a : String),
        resolver a = some 0 ∨ resolver a = none →
        eval_expr (.BinaryOp .Div (.Number l) (.CellRef a)) resolver
          = .error .DivBy0) := by
  refine ⟨rfl, ?_, ?_⟩
  · intro op hop
    cases op with
    | Add => exact ⟨l + r, rfl⟩
    | Sub => exact ⟨l - r, rfl⟩
    | Mul => exact ⟨l * r, rfl⟩
    | Div => exact absurd rfl hop
    | Pow => exact ⟨powf l r, rfl⟩
  · intro resolver a h
    rcases h with h | h <;>
      · simp only [eval_expr, h]
        with_unfolding_all rfl

/-- Witness for C4 at `l = 1`, `r = 0` and the resolver sending `"B9"` to
`0`: division by a literal zero and by a zero-valued cell both fail with
`DivBy0`, while `+` still succeeds. -/
theorem C4_div_by_zero_only_witness :
    (eval_binary_op .Div 1 0 = .error .DivBy0)
    ∧ (∃ v : ℚ, eval_binary_op .Add 1 0 = .ok v)
    ∧ (eval_expr (.BinaryOp .Div (.Number 1) (.CellRef "B9"))
        (fun s => if s = "B9" then some 0 else none) = .error .DivBy0) := by
  obtain ⟨h1, h2, h3⟩ := C4_div_by_zero_only 1 0
  refine ⟨by simpa using h1, h2 .Add (by simp), ?_⟩
  exact h3 (fun s => if s = "B9" then some 0 else none) "B9" (Or.inl (by simp))

/-- C5: `SUM` of any argument list is its arithmetic sum (so `SUM()` is
`0` and `SUM(1,2,3)` is `6`); `AVG` of a non-empty list is its arithmetic
mean (`AVG(1,2,3)` is `2`) and `AVG()` fails with `DivBy0`. -/
theorem C5_sum_avg :
    (sum [] = .ok 0)
    ∧ (∀ args : List ℚ, sum args = .ok args.sum)
    ∧ (∀ args : List ℚ, args ≠ [] → avg args = .ok (args.sum / args.length))
    ∧ (avg ([] : List ℚ) = .error .DivBy0)
    ∧ (calculate "=SUM(1,2,3)" (fun _ => none) = .ok 6)
    ∧ (calculate "=SUM()" (fun _ => none) = .ok 0)
    ∧ (calculate "=AVG(1,2,3)" (fun _ => none) = .ok 2)
    ∧ (calculate "=AVG()" (fun _ => none) = .error .DivBy0) := by
  refine ⟨rfl, fun args => rfl, ?_, rfl, ?_, ?_, ?_, ?_⟩
  · intro args h
    cases args with
    | nil => exact absurd rfl h
    | cons a as => rfl
  · with_unfolding_all rfl
  · with_unfolding_all rfl
  · with_unfolding_all rfl
  · with_unfolding_all rfl

/-- Witness for C5 at the one-element list `[5]`: `AVG` returns its mean. -/
theorem C5_sum_avg_witness :
    avg [(5 : ℚ)] = .ok (List.sum [(5 : ℚ)] / (List.length [(5 : ℚ)] : ℚ)) :=
  C5_sum_avg.2.2.1 [5] (by simp)

/-- C6: function names are resolved at evaluation time through the
registry keyed by the upper-cased name, so every casing with the same
upper-casing dispatches to the same reducer (`avG` behaves as the canonical
`AVG`); a name not in the registry parses fine but evaluation fails with
`UnknownFunction`.  The grammar half relies on the spec-modelled parser
(the pest grammar file is absent from the sources). -/
theorem C6_function_lookup :
    (∀ (name : String) (args : List Expr) (r : String → Option ℚ),
        name.toUpper = "AVG" →
        eval_expr (.Function name args) r = (eval_args args r).bind avg)
    ∧ (∀ (name : String) (args : List Expr) (r : String → Option ℚ),
        name.toUpper = "SUM" →
        eval_expr (.Function name args) r = (eval_args args r).bind sum)
    ∧ (calculate "=avG(1,2,3)" (fun _ => none) = .ok 2)
    ∧ (parse_formula "=FOO(1)" = some (.Function "FOO" [.Number 1]))
    ∧ (∀ r : String → Option ℚ,
        calculate "=FOO(1)" r = .error .UnknownFunction) := by
  refine ⟨?_, ?_, ?_, ?_, ?_⟩
  · intro name args r h
    simp only [eval_expr, h, FUNCTION_REGISTRY, if_pos]
    cases eval_args args r <;> rfl
  · intro name args r h
    simp only [eval_expr, h, FUNCTION_REGISTRY]
    cases eval_args args r <;> rfl
  · with_unfolding_all rfl
  · with_unfolding_all rfl
  · intro r
    with_unfolding_all rfl

/-- Witness for C6 at the casing `"avG"`: its evaluation is the `avg`
reducer applied to the evaluated arguments. -/
theorem C6_function_lookup_witness :
    eval_expr (.Function "avG" [.Number 1]) (fun _ => none)
      = (eval_args [.Number 1] (fun _ => none)).bind avg :=
  C6_function_lookup.1 "avG" [.Number 1] (fun _ => none)
    (by with_unfolding_all rfl)

/-- C7: a cell reference evaluates to the resolver's value, defaulting to
`0` when the resolver yields nothing, and never produces an error; the
error display strings are non-numeric, so a cell displaying an error
resolves (via `get_cell_value_by_address`) to nothing and a dependant sees
`0` rather than inheriting the error kind. -/
theorem C7_cell_ref_resolution :
    (∀ (a : String) (resolver : String → Option ℚ),
        eval_expr (.CellRef a) resolver = .ok ((resolver a).getD 0))
    ∧ (∀ (a : String) (resolver : String → Option ℚ),
        resolver a = none → eval_expr (.CellRef a) resolver = .ok 0)
    ∧ (∀ e : FormulaError, parseNum e.toDisplayString.data = none)
    ∧ (∀ (g : Grid) (address : String) (c : Coords) (cell : Cell),
        cell_address_to_coords address.data = some c →
        g.find c = some cell →
        parseNum cell.display_value.data = none →
        g.get_cell_value_by_address address = none) := by
  refine ⟨?_, ?_, ?_, ?_⟩
  · intro a resolver
    cases h : resolver a <;> simp [eval_expr, h]
  · intro a resolver h
    simp [eval_expr, h]
  · intro e
    cases e <;> with_unfolding_all rfl
  · intro g address c cell h1 h2 h3
    simp [Grid.get_cell_value_by_address, h1, h2, h3, Option.bind]

/-- Witness for C7: an unresolvable reference evaluates to `0`, and in a
grid whose `A1` displays the error text `"#DIV/0!"` the address `A1`
resolves to nothing. -/
theorem C7_cell_ref_resolution_witness :
    (eval_expr (.CellRef "Z9") (fun _ => none) = .ok 0)
    ∧ ((Grid.mk [(⟨0, 0⟩, ⟨"=1/0", "#DIV/0!"⟩)]).get_cell_value_by_address
        "A1" = none) := by
  refine ⟨C7_cell_ref_resolution.2.1 "Z9" (fun _ => none) rfl, ?_⟩
  exact C7_cell_ref_resolution.2.2.2 (Grid.mk [(⟨0, 0⟩, ⟨"=1/0", "#DIV/0!"⟩)])
    "A1" ⟨0, 0⟩ ⟨"=1/0", "#DIV/0!"⟩ (by with_unfolding_all rfl)
    (by with_unfolding_all rfl) (C7_cell_ref_resolution.2.2.1 .DivBy0)

/-! ### Claims about the grammar (C8, C9) -/

/-- The resolver of the repository's own tests
(`mock_cell_ref_resolver` in `parser.rs` lines 228-234): `A1 ↦ 1`,
`B2 ↦ 2`, everything else absent. -/
def mock_cell_ref_resolver (s : String) : Option ℚ :=
  if s = "A1" then some 1 else if s = "B2" then some 2 else none

/-- C8: `+ - * /` are left-associative, `^` is right-associative,
precedence low→high is additive, multiplicative, power, with unary minus
binding tighter than power; consequently the five spec evaluations hold
with `A1 = 1`, `B2 = 2`.  The parse trees witness the structural half, the
`calculate` runs the numeric half.  (Grammar spec-modelled: the pest file
is absent from the sources; the operator table is `PRATT_PARSER` in
`parser.rs`.) -/
theorem C8_precedence_associativity :
    (parse_formula "=1-2-3"
      = some (.BinaryOp .Sub (.BinaryOp .Sub (.Number 1) (.Number 2)) (.Number 3)))
    ∧ (parse_formula "=8/4/2"
      = some (.BinaryOp .Div (.BinaryOp .Div (.Number 8) (.Number 4)) (.Number 2)))
    ∧ (parse_formula "=2^3^2"
      = some (.BinaryOp .Pow (.Number 2) (.BinaryOp .Pow (.Number 3) (.Number 2))))
    ∧ (parse_formula "=1+2*3"
      = some (.BinaryOp .Add (.Number 1) (.BinaryOp .Mul (.Number 2) (.Number 3))))
    ∧ (parse_formula "=2*3^2"
      = some (.BinaryOp .Mul (.Number 2) (.BinaryOp .Pow (.Number 3) (.Number 2))))
    ∧ (parse_formula "=-2^2"
      = some (.BinaryOp .Pow (.UnaryOp .Neg (.Number 2)) (.Number 2)))
    ∧ (calculate "=3+12" mock_cell_ref_resolver = .ok 15)
    ∧ (calculate "=3+-12" mock_cell_ref_resolver = .ok (-9))
    ∧ (calculate "=3+-12/3" mock_cell_ref_resolver = .ok (-1))
    ∧ (calculate "=(3+-12)/3" mock_cell_ref_resolver = .ok (-3))
    ∧ (calculate "=-A1+B2*2" mock_cell_ref_resolver = .ok 3) := by
  refine ⟨?_, ?_, ?_, ?_, ?_, ?_, ?_, ?_, ?_, ?_, ?_⟩ <;> with_unfolding_all rfl

/-- C9: parsing is total — every input either yields a full AST whose
evaluation `calculate` returns, or the `ParsingError` result; the spec's
malformed inputs (range syntax, unbalanced parentheses, trailing garbage,
unknown tokens) all fail, and its well-formed inputs parse.  (Grammar
spec-modelled: the pest file is absent from the sources.) -/
theorem C9_parsing_total :
    (∀ (s : String) (r : String → Option ℚ),
        (∃ e, parse_formula s = some e ∧ calculate s r = eval_expr e r)
        ∨ (parse_formula s = none ∧ calculate s r = .error .ParsingError))
    ∧ (∀ (s : String) (r : String → Option ℚ),
        parse_formula s = none → calculate s r = .error .ParsingError)
    ∧ (parse_formula "=A1:B3" = none)
    ∧ (parse_formula "=(3+2" = none)
    ∧ (parse_formula "=3+2)" = none)
    ∧ (parse_formula "=3 4" = none)
    ∧ (parse_formula "=3$" = none)
    ∧ ((parse_formula "=SUM(1,A1,-3)").isSome = true)
    ∧ ((parse_formula "=A1+-B2/9").isSome = true) := by
  have hcalc : ∀ (s : String) (r : String → Option ℚ),
      calculate s r = match parse_formula s with
        | some e => eval_expr e r
        | none => .error .ParsingError := fun s r => rfl
  refine ⟨?_, ?_, ?_, ?_, ?_, ?_, ?_, ?_, ?_⟩
  · intro s r
    cases h : parse_formula s with
    | none => exact Or.inr ⟨rfl, by rw [hcalc, h]⟩
    | some e => exact Or.inl ⟨e, rfl, by rw [hcalc, h]⟩
  · intro s r h
    rw [hcalc, h]
  all_goals with_unfolding_all rfl

/-- Witness for C9 at the range-syntax input `"=A1:B3"`: it fails to parse
and `calculate` returns `ParsingError`. -/
theorem C9_parsing_total_witness :
    calculate "=A1:B3" (fun _ => none) = .error .ParsingError :=
  C9_parsing_total.2.1 "=A1:B3" (fun _ => none) (by with_unfolding_all rfl)

/-! ### Claims about editing and recomputation (C1–C3)

`update_cell_display` is the *entire* recomputation machinery of the
sources: there is no dependency graph, no cascade and no cycle detection
anywhere in the repository.  The next lemmas make the resulting locality
precise. -/

/-- Looking up the freshly inserted coordinate returns the new cell. -/
theorem Grid.find_insert_self (g : Grid) (c : Coords) (x : Cell) :
    (g.insert c x).find c = some x := by
  simp [Grid.insert, Grid.find, List.find?]

/-- Inserting at `c` does not change lookups at any other coordinate. -/
theorem Grid.find_insert_ne (g : Grid) {c c' : Coords} (x : Cell)
    (h : c' ≠ c) : (g.insert c x).find c' = g.find c' := by
  have hcc : (decide (c = c')) = false := decide_eq_false fun hh => h hh.symm
  simp [Grid.insert, Grid.find, List.find?, hcc]

/-- `update_cell_display` touches only the cell it is called on. -/
theorem update_cell_display_find_ne (g : Grid) {c c' : Coords}
    (h : c' ≠ c) : (update_cell_display g c).find c' = g.find c' := by
  unfold update_cell_display
  split
  · rfl
  · split <;> exact Grid.find_insert_ne _ _ h

/-- `set_cell_content` touches only the cell it edits. -/
theorem set_cell_content_find_ne (g : Grid) {c c' : Coords} (t : String)
    (h : c' ≠ c) : (set_cell_content g c t).find c' = g.find c' := by
  unfold set_cell_content
  rw [update_cell_display_find_ne _ h, Grid.find_insert_ne _ _ h]

/-- The consistent starting grid of the propagation scenario: `A1` holds
`"1"`, `B1` holds `"=A1+1"` displaying `"2"`, `C1` holds `"=B1+1"`
displaying `"3"` — each display is what its own recomputation produces, so
every cell counts as previously recomputed. -/
def propagationGrid : Grid :=
  ⟨[(⟨0, 0⟩, ⟨"1", "1"⟩), (⟨0, 1⟩, ⟨"=A1+1", "2"⟩), (⟨0, 2⟩, ⟨"=B1+1", "3"⟩)]⟩

/-- C1 fails on the code: after `set_cell_content(A1, "10")` the displays
of `B1` and `C1` are still the stale `"2"` and `"3"`, not the claimed
`"11"` and `"12"` — the edit recomputes only the edited cell, nothing
cascades. -/
theorem C1_counterexample :
    (((set_cell_content propagationGrid ⟨0, 0⟩ "10").find ⟨0, 1⟩).map
        Cell.display_value = some "2")
    ∧ (((set_cell_content propagationGrid ⟨0, 0⟩ "10").find ⟨0, 2⟩).map
        Cell.display_value = some "3")
    ∧ (some "2" ≠ (some "11" : Option String))
    ∧ (some "3" ≠ (some "12" : Option String)) := by
  refine ⟨?_, ?_, by decide, by decide⟩ <;> with_unfolding_all rfl

/-- C1 amended: a single edit recomputes only the edited cell.  In the
scenario, `set_cell_content(A1, "10")` sets `A1`'s display to `"10"` while
`B1` and `C1` keep their previous displays `"2"` and `"3"`; in general an
edit at one coordinate never changes any other cell. -/
theorem C1_no_propagation :
    (∀ (g : Grid) (c c' : Coords) (t : String), c' ≠ c →
        (set_cell_content g c t).find c' = g.find c')
    ∧ (((set_cell_content propagationGrid ⟨0, 0⟩ "10").find ⟨0, 0⟩).map
        Cell.display_value = some "10")
    ∧ (((set_cell_content propagationGrid ⟨0, 0⟩ "10").find ⟨0, 1⟩).map
        Cell.display_value = some "2")
    ∧ (((set_cell_content propagationGrid ⟨0, 0⟩ "10").find ⟨0, 2⟩).map
        Cell.display_value = some "3") := by
  refine ⟨fun g c c' t h => set_cell_content_find_ne g t h, ?_, ?_, ?_⟩ <;>
    with_unfolding_all rfl

/-- Witness for C1 (amended) at the concrete scenario: the edit of `A1`
leaves `B1` exactly as it was. -/
theorem C1_no_propagation_witness :
    (set_cell_content propagationGrid ⟨0, 0⟩ "10").find ⟨0, 1⟩
      = propagationGrid.find ⟨0, 1⟩ :=
  C1_no_propagation.1 propagationGrid ⟨0, 0⟩ ⟨0, 1⟩ "10" (by decide)

/-- The grid after the two edits `A1 = "=B1"` then `B1 = "=A1"`, starting
from an empty grid. -/
def cycleGrid : Grid :=
  set_cell_content (set_cell_content ⟨[]⟩ ⟨0, 0⟩ "=B1") ⟨0, 1⟩ "=A1"

/-- C2 fails on the code: after the mutually referential edits both cells
display the numeric string `"0"` — each resolves the other as non-numeric
or absent — not a circular-reference error string; the code has no cycle
detection at all. -/
theorem C2_counterexample :
    ((cycleGrid.find ⟨0, 0⟩).map Cell.display_value = some "0")
    ∧ ((cycleGrid.find ⟨0, 1⟩).map Cell.display_value = some "0") := by
  constructor <;> with_unfolding_all rfl

/-- C2 amended: after both edits `A1` and `B1` each display `"0"`, and
`FormulaError` is the closed enumeration
`{ParsingError, DivBy0, UnknownFunction}` — it has no circular-reference
kind, and no error display string beyond `"#NAME?"` and `"#DIV/0!"`
exists. -/
theorem C2_no_circular_reference :
    ((cycleGrid.find ⟨0, 0⟩).map Cell.display_value = some "0")
    ∧ ((cycleGrid.find ⟨0, 1⟩).map Cell.display_value = some "0")
    ∧ (∀ e : FormulaError,
        e = .ParsingError ∨ e = .DivBy0 ∨ e = .UnknownFunction)
    ∧ (∀ e : FormulaError,
        e.toDisplayString = "#NAME?" ∨ e.toDisplayString = "#DIV/0!") := by
  refine ⟨?_, ?_, ?_, ?_⟩
  · with_unfolding_all rfl
  · with_unfolding_all rfl
  · intro e
    cases e with
    | ParsingError => exact Or.inl rfl
    | DivBy0 => exact Or.inr (Or.inl rfl)
    | UnknownFunction => exact Or.inr (Or.inr rfl)
  · intro e
    cases e with
    | ParsingError => exact Or.inl rfl
    | DivBy0 => exact Or.inr rfl
    | UnknownFunction => exact Or.inl rfl

/-- Grid whose `A1` displays the non-numeric text `"hello"` while `B1`
holds the single-address formula `"=A1"`. -/
def verbatimGrid : Grid :=
  ⟨[(⟨0, 0⟩, ⟨"hello", "hello"⟩), (⟨0, 1⟩, ⟨"=A1", ""⟩)]⟩

/-- Grid whose `A1` displays the error text `"#DIV/0!"` while `B1` holds
the single-address formula `"=A1"`. -/
def errorSourceGrid : Grid :=
  ⟨[(⟨0, 0⟩, ⟨"=1/0", "#DIV/0!"⟩), (⟨0, 1⟩, ⟨"=A1", ""⟩)]⟩

/-- C3 fails on the code: recomputing a cell holding exactly `"=A1"` does
*not* copy the source's display text verbatim — with `A1` displaying
`"hello"` the cell displays `"0"`, and with `A1` erroring (`"#DIV/0!"`)
it also displays `"0"` rather than the error text.  There is no
direct-reference shortcut: the content goes through the full parser. -/
theorem C3_counterexample :
    (((update_cell_display verbatimGrid ⟨0, 1⟩).find ⟨0, 1⟩).map
        Cell.display_value = some "0")
    ∧ ("0" ≠ "hello")
    ∧ (((update_cell_display errorSourceGrid ⟨0, 1⟩).find ⟨0, 1⟩).map
        Cell.display_value = some "0")
    ∧ ("0" ≠ "#DIV/0!") := by
  refine ⟨?_, by decide, ?_, by decide⟩ <;> with_unfolding_all rfl

/-- An alphabetic character is not a digit (code points `65`–`90` and
`97`–`122` versus `48`–`57`). -/
theorem isAlpha_not_digit {ch : Char} (h : ch.isAlpha = true) :
    ch.isDigit = false := by
  simp [Char.isAlpha, Char.isUpper, Char.isLower, Char.isDigit,
    UInt32.le_def, UInt32.lt_def, BitVec.le_def, BitVec.lt_def] at *
  omega

/-- A digit character is not alphabetic. -/
theorem isDigit_not_alpha {ch : Char} (h : ch.isDigit = true) :
    ch.isAlpha = false := by
  simp [Char.isAlpha, Char.isUpper, Char.isLower, Char.isDigit,
    UInt32.le_def, UInt32.lt_def, BitVec.le_def, BitVec.lt_def] at *
  omega

/-- An alphabetic character is neither a space nor a tab. -/
theorem isAlpha_not_ws {ch : Char} (h : ch.isAlpha = true) :
    ¬(ch = ' ' ∨ ch = '\t') := by
  rintro (rfl | rfl) <;> simp at h

/-- `takeWhile` walks through a prefix on which the predicate holds. -/
theorem takeWhile_append_all {p : Char → Bool} {l1 l2 : List Char}
    (h : ∀ x ∈ l1, p x = true) :
    (l1 ++ l2).takeWhile p = l1 ++ l2.takeWhile p := by
  induction l1 with
  | nil => rfl
  | cons x xs ih =>
    simp only [List.cons_append, List.takeWhile, h x (by simp), List.append_eq]
    rw [ih fun y hy => h y (by simp [hy])]

/-- `dropWhile` skips a prefix on which the predicate holds. -/
theorem dropWhile_append_all {p : Char → Bool} {l1 l2 : List Char}
    (h : ∀ x ∈ l1, p x = true) :
    (l1 ++ l2).dropWhile p = l2.dropWhile p := by
  induction l1 with
  | nil => rfl
  | cons x xs ih =>
    simp only [List.cons_append, List.dropWhile, h x (by simp)]
    exact ih fun y hy => h y (by simp [hy])

/-- `takeWhile` keeps a list the predicate holds on entirely. -/
theorem takeWhile_all {p : Char → Bool} {l : List Char}
    (h : ∀ x ∈ l, p x = true) : l.takeWhile p = l := by
  induction l with
  | nil => rfl
  | cons x xs ih =>
    simp only [List.takeWhile, h x (by simp)]
    rw [ih fun y hy => h y (by simp [hy])]

/-- `dropWhile` empties a list the predicate holds on entirely. -/
theorem dropWhile_all {p : Char → Bool} {l : List Char}
    (h : ∀ x ∈ l, p x = true) : l.dropWhile p = [] := by
  induction l with
  | nil => rfl
  | cons x xs ih =>
    simp only [List.dropWhile, h x (by simp)]
    exact ih fun y hy => h y (by simp [hy])

/-- A non-empty list is not `isEmpty`. -/
theorem isEmpty_false_of_ne_nil {l : List Char} (h : l ≠ []) :
    l.isEmpty = false := by
  cases l with
  | nil => exact absurd rfl h
  | cons x xs => rfl

/-- Any positive fuel tokenizes the empty input to the empty token list. -/
theorem tokenize_nil {f : ℕ} (hf : 0 < f) : tokenize f [] = some [] := by
  obtain ⟨f', rfl⟩ : ∃ f', f = f' + 1 := ⟨f - 1, by omega⟩
  rfl

/-- Tokenizing a cell address — one-or-more letters followed by
one-or-more digits — yields the single identifier token of that address. -/
theorem tokenize_address (ls ds : List Char) (hls : ls ≠ [])
    (hla : ∀ c ∈ ls, c.isAlpha = true) (hds : ds ≠ [])
    (hdd : ∀ c ∈ ds, c.isDigit = true) :
    tokenize ((ls ++ ds).length + 1) (ls ++ ds)
      = some [Tok.ident ⟨ls ++ ds⟩] := by
  obtain ⟨c, ls', rfl⟩ : ∃ c ls', ls = c :: ls' := by
    cases ls with
    | nil => exact absurd rfl hls
    | cons c ls' => exact ⟨c, ls', rfl⟩
  have hca : c.isAlpha = true := hla c (by simp)
  have hta : ((c :: (ls' ++ ds)).takeWhile Char.isAlpha) = c :: ls' := by
    rw [← List.cons_append, takeWhile_append_all (fun x hx => hla x hx)]
    cases hD : ds with
    | nil => exact absurd hD hds
    | cons d ds' =>
      have : d.isAlpha = false := isDigit_not_alpha (hdd d (by rw [hD]; simp))
      simp [List.takeWhile, this]
  have hda : ((c :: (ls' ++ ds)).dropWhile Char.isAlpha) = ds := by
    rw [← List.cons_append, dropWhile_append_all (fun x hx => hla x hx)]
    cases hD : ds with
    | nil => rfl
    | cons d ds' =>
      have : d.isAlpha = false := isDigit_not_alpha (hdd d (by rw [hD]; simp))
      simp [List.dropWhile, this]
  have htd : ds.takeWhile Char.isDigit = ds := takeWhile_all hdd
  have hdd2 : ds.dropWhile Char.isDigit = [] := dropWhile_all hdd
  rw [List.cons_append]
  simp only [tokenize]
  rw [if_neg (isAlpha_not_ws hca), if_neg (by simp [isAlpha_not_digit hca]),
    if_pos hca]
  simp only [hta, hda, htd, hdd2]
  rw [tokenize_nil (by simp)]
  rfl

/-- With fuel at least `2`, a lone identifier token that is a well-formed
cell-reference name parses to the bare `CellRef` node. -/
theorem parse_expr_single_ident (f : ℕ) (hf : 2 ≤ f) (s : String)
    (h : isCellRefName s.data = true) :
    parse_expr f [Tok.ident s] 0 = some (.CellRef s, []) := by
  obtain ⟨f', rfl⟩ : ∃ f', f = f' + 2 := ⟨f - 2, by omega⟩
  simp only [parse_expr, h, if_true, parseLoop]

/-- Letters followed by digits form a well-formed cell-reference name. -/
theorem isCellRefName_address (ls ds : List Char) (hls : ls ≠ [])
    (hla : ∀ c ∈ ls, c.isAlpha = true) (hds : ds ≠ [])
    (hdd : ∀ c ∈ ds, c.isDigit = true) :
    isCellRefName (ls ++ ds) = true := by
  unfold isCellRefName
  have hta : ((ls ++ ds).takeWhile Char.isAlpha) = ls := by
    rw [takeWhile_append_all (fun x hx => hla x hx)]
    cases hD : ds with
    | nil => exact absurd hD hds
    | cons d ds' =>
      have : d.isAlpha = false := isDigit_not_alpha (hdd d (by rw [hD]; simp))
      simp [List.takeWhile, this]
  have hda : ((ls ++ ds).dropWhile Char.isAlpha) = ds := by
    rw [dropWhile_append_all (fun x hx => hla x hx)]
    cases hD : ds with
    | nil => rfl
    | cons d ds' =>
      have : d.isAlpha = false := isDigit_not_alpha (hdd d (by rw [hD]; simp))
      simp [List.dropWhile, this]
  simp only [hta, hda, isEmpty_false_of_ne_nil hls, isEmpty_false_of_ne_nil hds,
    List.all_eq_true.mpr hdd]
  rfl

/-- A formula whose stripped content is exactly one cell address —
one-or-more letters followed by one-or-more digits, the grammar's
cell-reference shape — parses to the bare `CellRef` node of that
address. -/
theorem parse_formula_address (ls ds : List Char) (hls : ls ≠ [])
    (hla : ∀ c ∈ ls, c.isAlpha = true) (hds : ds ≠ [])
    (hdd : ∀ c ∈ ds, c.isDigit = true) :
    parse_formula ⟨'=' :: (ls ++ ds)⟩ = some (.CellRef ⟨ls ++ ds⟩) := by
  unfold parse_formula
  have hdata : (String.mk ('=' :: (ls ++ ds))).data = '=' :: (ls ++ ds) := rfl
  rw [hdata]
  have hlen : ('=' :: (ls ++ ds)).length + 1 = ((ls ++ ds).length + 1) + 1 := by
    simp
  rw [hlen]
  have hstep : tokenize (((ls ++ ds).length + 1) + 1) ('=' :: (ls ++ ds))
      = (tokenize ((ls ++ ds).length + 1) (ls ++ ds)).map (Tok.eqSign :: ·) := by
    simp only [tokenize]
    rw [if_neg (by rintro (h | h) <;> exact nomatch h),
      if_neg (by simp), if_neg (by simp)]
  rw [hstep, tokenize_address ls ds hls hla hds hdd]
  simp only [Option.map]
  rw [parse_expr_single_ident _ (by norm_num) _
    (isCellRefName_address ls ds hls hla hds hdd)]

/-- C3 amended: a cell whose stripped content is exactly one cell address
(any one-or-more letters followed by one-or-more digits) is handled by the
general parse-and-evaluate path; its display becomes the stringified
numeric resolution of that address — the source's display parsed as a
number, `0` when the source is absent, non-numeric or erroring — never the
source's display text verbatim. -/
theorem C3_single_address_full_eval (g : Grid) (c : Coords) (cell : Cell)
    (ls ds : List Char)
    (hls : ls ≠ []) (hla : ∀ ch ∈ ls, ch.isAlpha = true)
    (hds : ds ≠ []) (hdd : ∀ ch ∈ ds, ch.isDigit = true)
    (h1 : g.find c = some cell)
    (h2 : cell.content = ⟨'=' :: (ls ++ ds)⟩) :
    (update_cell_display g c).find c
      = some ⟨cell.content,
          fmtQ ((g.get_cell_value_by_address ⟨ls ++ ds⟩).getD 0)⟩ := by
  obtain ⟨ct, dv0⟩ := cell
  have h2' : ct = ⟨'=' :: (ls ++ ds)⟩ := h2
  subst h2'
  have hp := parse_formula_address ls ds hls hla hds hdd
  have hcalc : calculate ⟨'=' :: (ls ++ ds)⟩
      (fun rs => g.get_cell_value_by_address rs)
      = .ok ((g.get_cell_value_by_address ⟨ls ++ ds⟩).getD 0) := by
    unfold calculate
    rw [hp]
    cases hv : g.get_cell_value_by_address ⟨ls ++ ds⟩ <;> simp [eval_expr, hv]
  have key : update_cell_display g c
      = g.insert c ⟨⟨'=' :: (ls ++ ds)⟩,
          match calculate ⟨'=' :: (ls ++ ds)⟩
            (fun rs => g.get_cell_value_by_address rs) with
          | .ok val => fmtQ val
          | .error e => e.toDisplayString⟩ := by
    unfold update_cell_display
    rw [h1]
    with_unfolding_all rfl
  rw [key, Grid.find_insert_self, hcalc]

/-- Witness for C3 (amended) at `verbatimGrid` and the address `A1`
(letters `['A']`, digits `['1']`): the display of `B1` becomes the
stringified `0`, since `"hello"` is non-numeric. -/
theorem C3_single_address_full_eval_witness :
    (update_cell_display verbatimGrid ⟨0, 1⟩).find ⟨0, 1⟩
      = some ⟨"=A1",
          fmtQ ((verbatimGrid.get_cell_value_by_address ⟨['A', '1']⟩).getD 0)⟩ :=
  C3_single_address_full_eval verbatimGrid ⟨0, 1⟩ ⟨"=A1", ""⟩ ['A'] ['1']
    (by decide) (by decide) (by decide) (by decide)
    (by with_unfolding_all rfl) rfl

/-! ### Claim C10: coordinate/address round trip -/

/-- The letters produced by `colLettersAux` lie in `A`–`Z`: upper-casing
fixes them, their code is `65 + m`, and they are not digits. -/
theorem letterChar_spec (m : ℕ) (h : m < 26) :
    ((Char.ofNat (65 + m)).toUpper.toNat : ℤ) = 65 + m
    ∧ (Char.ofNat (65 + m)).isDigit = false := by
  interval_cases m <;> exact ⟨by decide, by decide⟩

/-- Digit characters: they are digits and their value is recovered by
subtracting `48`. -/
theorem digitChar_spec (m : ℕ) (h : m < 10) :
    (Char.ofNat (48 + m)).isDigit = true
    ∧ (Char.ofNat (48 + m)).toNat - 48 = m := by
  interval_cases m <;> exact ⟨by decide, by decide⟩

/-- `wrap32` is the identity on the `i32` range: no arithmetic in the
round-trip wraps as long as every intermediate value is representable. -/
theorem wrap32_id {x : ℤ} (h1 : -2147483648 ≤ x) (h2 : x ≤ 2147483647) :
    wrap32 x = x := by
  unfold wrap32
  omega

/-- `colLettersAux` produces only non-digit letters, and — as long as the
column index `c + 1` fits in `i32`, so that no fold step wraps —
`column_letter_to_index` recovers `c + 1` from them (the conversion pair is
off by one: index `0` is column `A` which converts back to `1`). -/
theorem colLettersAux_spec (c : ℕ) (hb : (c : ℤ) + 1 ≤ 2147483647) :
    (∀ x ∈ colLettersAux c, x.isDigit = false)
    ∧ column_letter_to_index (colLettersAux c) = (c : ℤ) + 1 := by
  induction c using Nat.strong_induction_on with
  | _ c ih =>
    unfold colLettersAux
    by_cases hlt : c < 26
    · rw [if_pos hlt]
      obtain ⟨hup, hdig⟩ := letterChar_spec c hlt
      refine ⟨?_, ?_⟩
      · intro x hx
        rw [List.mem_singleton] at hx
        rw [hx, hdig]
      · simp only [column_letter_to_index, List.foldl_cons, List.foldl_nil]
        rw [hup]
        have hw0 : wrap32 ((0 : ℤ) * 26) = 0 := by
          unfold wrap32
          norm_num
        rw [hw0, wrap32_id (by omega) (by omega)]
        ring
    · rw [if_neg hlt]
      have hdec : c / 26 - 1 < c := by
        have := Nat.div_lt_self (show 0 < c by omega) (show 1 < 26 by omega)
        omega
      have hbrec : ((c / 26 - 1 : ℕ) : ℤ) + 1 ≤ 2147483647 := by
        have : (c / 26 - 1 : ℕ) ≤ c := by omega
        omega
      obtain ⟨ihdig, ihidx⟩ := ih (c / 26 - 1) hdec hbrec
      have hmod : c % 26 < 26 := Nat.mod_lt _ (by omega)
      obtain ⟨hup, hdig⟩ := letterChar_spec (c % 26) hmod
      refine ⟨?_, ?_⟩
      · intro x hx
        rw [List.mem_append] at hx
        rcases hx with hx | hx
        · exact ihdig x hx
        · rw [List.mem_singleton] at hx
          rw [hx, hdig]
      · simp only [column_letter_to_index, List.foldl_append, List.foldl_cons,
          List.foldl_nil]
        have hfold : List.foldl
            (fun r ch => wrap32 (wrap32 (r * 26) + (((ch.toUpper.toNat : ℤ)) - 65 + 1))) 0
            (colLettersAux (c / 26 - 1)) = ((c / 26 - 1 : ℕ) : ℤ) + 1 := ihidx
        rw [hfold, hup]
        have h26 : 26 ≤ c := by omega
        have h1 : 1 ≤ c / 26 := (Nat.one_le_div_iff (by omega)).mpr h26
        have hdm := Nat.div_add_mod c 26
        have hcast : ((c / 26 - 1 : ℕ) : ℤ) + 1 = ((c / 26 : ℕ) : ℤ) := by
          push_cast [Nat.cast_sub h1]
          ring
        rw [hcast]
        have hqm : ((c / 26 : ℕ) : ℤ) * 26 + ((c % 26 : ℕ) : ℤ) = (c : ℤ) := by
          omega
        have hm0 : (0 : ℤ) ≤ ((c % 26 : ℕ) : ℤ) := by positivity
        have hm26 : ((c % 26 : ℕ) : ℤ) < 26 := by exact_mod_cast hmod
        have hq0 : (0 : ℤ) ≤ ((c / 26 : ℕ) : ℤ) := by positivity
        have hin : wrap32 (((c / 26 : ℕ) : ℤ) * 26) = ((c / 26 : ℕ) : ℤ) * 26 :=
          wrap32_id (by omega) (by omega)
        rw [hin, wrap32_id (by omega) (by omega)]
        omega

/-- `natDecimal` produces a non-empty all-digit string whose numeric value
(the fold used by `parseRowInt`) is the original number. -/
theorem natDecimal_spec (n : ℕ) :
    (∀ x ∈ natDecimal n, x.isDigit = true)
    ∧ natDecimal n ≠ []
    ∧ digitsToNat (natDecimal n) = n := by
  induction n using Nat.strong_induction_on with
  | _ n ih =>
    unfold natDecimal
    by_cases hlt : n < 10
    · rw [dif_pos hlt]
      obtain ⟨hdig, hval⟩ := digitChar_spec n hlt
      refine ⟨?_, by simp, ?_⟩
      · intro x hx
        rw [List.mem_singleton] at hx
        rw [hx, hdig]
      · simp only [digitsToNat, List.foldl_cons, List.foldl_nil]
        omega
    · rw [dif_neg hlt]
      have hdec : n / 10 < n :=
        Nat.div_lt_self (by omega) (by omega)
      obtain ⟨ihdig, ihne, ihval⟩ := ih (n / 10) hdec
      have hmod : n % 10 < 10 := Nat.mod_lt _ (by omega)
      obtain ⟨hdig, hval⟩ := digitChar_spec (n % 10) hmod
      refine ⟨?_, by simp, ?_⟩
      · intro x hx
        rw [List.mem_append] at hx
        rcases hx with hx | hx
        · exact ihdig x hx
        · rw [List.mem_singleton] at hx
          rw [hx, hdig]
      · simp only [digitsToNat, List.foldl_append, List.foldl_cons,
          List.foldl_nil]
        have hfold : List.foldl (fun a ch => a * 10 + (ch.toNat - 48)) 0
            (natDecimal (n / 10)) = n / 10 := ihval
        rw [hfold]
        have hdm := Nat.div_add_mod n 10
        omega

/-- `parseRowInt` inverts `natDecimal` on values that fit in `i32`
(beyond `i32::MAX` the source's `parse::<i32>` fails instead). -/
theorem parseRowInt_natDecimal (n : ℕ) (hb : n ≤ 2147483647) :
    parseRowInt (natDecimal n) = some (n : ℤ) := by
  obtain ⟨hdig, hne, hval⟩ := natDecimal_spec n
  unfold parseRowInt
  have hempty : (natDecimal n).isEmpty = false := by
    cases h : natDecimal n with
    | nil => exact absurd h hne
    | cons d rest => rfl
  have hall : (natDecimal n).all Char.isDigit = true :=
    List.all_eq_true.mpr hdig
  rw [hempty, hall]
  simp only [Bool.not_false, Bool.true_and, if_true]
  rw [if_pos (by rw [hval]; exact hb)]
  have hcast : ((digitsToNat (natDecimal n) : ℤ)) = (n : ℤ) := by
    exact_mod_cast hval
  exact congrArg some hcast

/-- C10 fails on the code at the edge of the `i32` range: at
`row = i32::MAX = 2147483647` the rendered row number `2147483648`
overflows `parse::<i32>`, so `cell_address_to_coords` returns `None`
instead of the claimed `Some` of the original coordinate. -/
theorem C10_counterexample :
    (cell_address_to_coords
        (column_index_to_letter 0 ++ intDecimal ((2147483647 : ℤ) + 1)) = none)
    ∧ ((none : Option Coords) ≠ some ⟨2147483647, 0⟩) := by
  refine ⟨?_, by decide⟩
  have hcol : column_index_to_letter 0 = ['A'] := by with_unfolding_all rfl
  have hrowl : intDecimal ((2147483647 : ℤ) + 1) = natDecimal 2147483648 := by
    with_unfolding_all rfl
  rw [hcol, hrowl]
  obtain ⟨hdig, hne, hval⟩ := natDecimal_spec 2147483648
  set l2 := natDecimal 2147483648 with hl2
  have hall1 : ∀ x ∈ (['A'] : List Char), (!x.isDigit) = true := by decide
  have htake2 : l2.takeWhile (fun ch => !ch.isDigit) = [] := by
    cases h : l2 with
    | nil => exact absurd h hne
    | cons d rest =>
      have hd : d.isDigit = true := hdig d (by rw [h]; simp)
      simp [List.takeWhile, hd]
  have hdrop2 : l2.dropWhile (fun ch => !ch.isDigit) = l2 := by
    cases h : l2 with
    | nil => rfl
    | cons d rest =>
      have hd : d.isDigit = true := hdig d (by rw [h]; simp)
      simp [List.dropWhile, hd]
  have hpre : ((['A'] : List Char) ++ l2).takeWhile (fun ch => !ch.isDigit)
      = ['A'] := by
    rw [takeWhile_append_all hall1, htake2, List.append_nil]
  have hpost : ((['A'] : List Char) ++ l2).dropWhile (fun ch => !ch.isDigit)
      = l2 := by
    rw [dropWhile_append_all hall1, hdrop2]
  have hrowval : parseRowInt l2 = none := by
    unfold parseRowInt
    rw [isEmpty_false_of_ne_nil hne, List.all_eq_true.mpr hdig]
    simp only [Bool.not_false, Bool.true_and, if_true]
    rw [if_neg (by rw [hval]; norm_num)]
  unfold cell_address_to_coords
  simp only [hpre, hpost]
  rw [isEmpty_false_of_ne_nil hne]
  simp only [Bool.false_eq_true, if_false]
  rw [hrowval]

/-- C10 amended: address formation round-trips through parsing for every
coordinate whose successor row and column numbers fit in `i32` — with
`0 ≤ row`, `0 ≤ col`, `row + 1 ≤ i32::MAX` and `col + 1 ≤ i32::MAX`,
`cell_address_to_coords (column_index_to_letter column ++ decimal (row+1))`
returns the original coordinate, and
`column_letter_to_index (column_index_to_letter c) = c + 1`.  Beyond that
range `parse::<i32>` fails (row side) or the `i32` fold wraps (column
side). -/
theorem C10_address_round_trip (row col : ℤ) (hr : 0 ≤ row) (hc : 0 ≤ col)
    (hrB : row + 1 ≤ 2147483647) (hcB : col + 1 ≤ 2147483647) :
    (cell_address_to_coords (column_index_to_letter col ++ intDecimal (row + 1))
      = some ⟨row, col⟩)
    ∧ (column_letter_to_index (column_index_to_letter col) = col + 1) := by
  have hcol : column_index_to_letter col = colLettersAux col.toNat := by
    unfold column_index_to_letter
    rw [if_neg (not_lt.mpr hc)]
  have hrowl : intDecimal (row + 1) = natDecimal (row + 1).toNat := by
    unfold intDecimal
    rw [if_neg (by omega)]
  obtain ⟨hnd, hidx⟩ := colLettersAux_spec col.toNat
    (by rw [Int.toNat_of_nonneg hc]; exact hcB)
  obtain ⟨hdig, hne, _⟩ := natDecimal_spec (row + 1).toNat
  have htc : ((col.toNat : ℤ)) = col := Int.toNat_of_nonneg hc
  have hidx' : column_letter_to_index (column_index_to_letter col) = col + 1 := by
    rw [hcol, hidx, htc]
  refine ⟨?_, hidx'⟩
  rw [hcol, hrowl]
  set l1 := colLettersAux col.toNat with hl1
  set l2 := natDecimal (row + 1).toNat with hl2
  have hall1 : ∀ x ∈ l1, (!x.isDigit) = true := by
    intro x hx
    rw [hnd x hx]
    rfl
  have htake2 : l2.takeWhile (fun ch => !ch.isDigit) = [] := by
    cases h : l2 with
    | nil => exact absurd h hne
    | cons d rest =>
      have hd : d.isDigit = true := hdig d (by rw [h]; simp)
      simp [List.takeWhile, hd]
  have hdrop2 : l2.dropWhile (fun ch => !ch.isDigit) = l2 := by
    cases h : l2 with
    | nil => rfl
    | cons d rest =>
      have hd : d.isDigit = true := hdig d (by rw [h]; simp)
      simp [List.dropWhile, hd]
  have hpre : (l1 ++ l2).takeWhile (fun ch => !ch.isDigit) = l1 := by
    rw [takeWhile_append_all hall1, htake2, List.append_nil]
  have hpost : (l1 ++ l2).dropWhile (fun ch => !ch.isDigit) = l2 := by
    rw [dropWhile_append_all hall1, hdrop2]
  have hrowval : parseRowInt l2 = some ((row + 1).toNat : ℤ) :=
    parseRowInt_natDecimal _ (by omega)
  have htn : (((row + 1).toNat : ℤ)) = row + 1 := Int.toNat_of_nonneg (by omega)
  unfold cell_address_to_coords
  simp only [hpre, hpost]
  have hempty2 : l2.isEmpty = false := by
    cases h : l2 with
    | nil => exact absurd h hne
    | cons d rest => rfl
  rw [hempty2]
  simp only [Bool.false_eq_true, if_false]
  rw [hrowval]
  have hidx2 : column_letter_to_index l1 = col + 1 := by
    rw [hl1, hidx, htc]
  rw [hidx2, htn]
  show some (Coords.mk (wrap32 (row + 1 - 1)) (wrap32 (col + 1 - 1)))
      = some (Coords.mk row col)
  rw [show row + 1 - 1 = row by ring, show col + 1 - 1 = col by ring]
  rw [wrap32_id (by omega) (by omega), wrap32_id (by omega) (by omega)]

/-- Witness for C10 (amended) at `row = 4`, `col = 27` (address `AB5`). -/
theorem C10_address_round_trip_witness :
    (cell_address_to_coords
        (column_index_to_letter 27 ++ intDecimal (4 + 1)) = some ⟨4, 27⟩)
    ∧ (column_letter_to_index (column_index_to_letter 27) = 27 + 1) :=
  C10_address_round_trip 4 27 (by decide) (by decide) (by decide) (by decide)

end Spreadsheet
